import Mathlib

/-!
Shallow embedding of the proposal-evaluation and RFP-draft-reconciliation
engine of a procurement web application.

Part 1 embeds `src/backend/services/proposalEvaluationService.ts`
(criterion scorers, item matcher, weighted overall score).
Part 2 embeds `normalizeRfpDraft` (the draft reconciler) and the
comparison-cache validity check of `src/backend/routes/ai.ts`.

Conventions of the embedding:
* JavaScript numbers are rationals (`ℚ`); quantities that the code treats as
  integers are `ℤ`/`ℕ`.  Floating-point rounding error and `NaN`/`Infinity`
  values are outside the modelled domain.
* `Math.round` is round-half-up (`roundJS`).
* Optional / nullable fields are `Option`; JavaScript truthiness of a number
  is `≠ 0`, of a string `≠ ""`.
* `String.prototype.includes` is the substring relation on character lists.
* `split(/\s+/)` is modelled by splitting on whitespace characters; the two
  differ only on empty tokens, which every consumer filters out by a
  `length > 3` test.
-/

/-- JavaScript `Math.round`: round half-up. -/
def roundJS (q : ℚ) : ℤ := ⌊q + 1/2⌋

/-- Lower-case a string (`String.prototype.toLowerCase` on the ASCII
domain of the embedding). -/
def jsToLower (s : String) : String := ⟨s.data.map Char.toLower⟩

/-- Is `pat` a contiguous prefix-at-some-position of `l`? -/
def isInfixList (pat : List Char) : List Char → Bool
  | [] => pat.isEmpty
  | l@(_ :: t) => pat.isPrefixOf l || isInfixList pat t

/-- JavaScript `haystack.includes(pat)`: `pat` occurs as a contiguous
substring of `haystack`. -/
def jsIncludes (haystack pat : String) : Bool :=
  isInfixList pat.data haystack.data

/-- Split on whitespace separators (the embedding of `split(/\s+/)`; the
two differ only on empty tokens, filtered out by every consumer). -/
def splitWsAux : List Char → List Char → List String
  | [], acc => [⟨acc.reverse⟩]
  | c :: cs, acc =>
    if c.isWhitespace then ⟨acc.reverse⟩ :: splitWsAux cs []
    else splitWsAux cs (c :: acc)

/-- Split a string at whitespace characters. -/
def splitWsJS (s : String) : List String := splitWsAux s.data []

/-- JavaScript `Array.prototype.join(sep)`. -/
def joinArr (sep : String) : List String → String
  | [] => ""
  | x :: xs => xs.foldl (fun acc y => acc ++ sep ++ y) x

/-- JavaScript truthiness of an optional number (`undefined`, `null` and `0`
are falsy). -/
def qtyTruthy : Option ℤ → Bool
  | some q => q != 0
  | none => false

/-- JavaScript truthiness of an optional string (`undefined`, `null` and `""`
are falsy). -/
def strTruthy : Option String → Bool
  | some s => s != ""
  | none => false

/-- `x || undefined` for an optional number: collapses falsy values to
`undefined`. -/
def orUndefinedQ : Option ℚ → Option ℚ
  | some q => if q = 0 then none else some q
  | none => none

/-- `x || undefined` for an optional string. -/
def orUndefinedS : Option String → Option String
  | some s => if s = "" then none else some s
  | none => none

/-! ## Data model of the evaluation service -/

/-- `RequirementItem` of `proposalEvaluationService.ts`. -/
structure RequirementItem where
  name : String
  quantity : Option ℤ := none
  specifications : Option String := none
deriving DecidableEq

/-- An entry of `ProposalData.itemPrices`. -/
structure ItemPrice where
  item : String
  price : ℚ := 0
  quantity : Option ℤ := none
deriving DecidableEq

/-- `RFPRequirements` of `proposalEvaluationService.ts`. -/
structure RFPRequirements where
  items : Option (List RequirementItem) := none
  deliveryDays : Option ℚ := none
  paymentTerms : Option String := none
  warranty : Option String := none
  otherRequirements : Option (List String) := none
deriving DecidableEq

/-- The `rfp` argument of `evaluateProposal`. -/
structure RFP where
  budget : Option ℚ := none
  requirements : RFPRequirements := {}
deriving DecidableEq

/-- The nested free-form `parsedData` blob of a proposal. -/
structure ParsedData where
  totalPrice : Option ℚ := none
  itemPrices : Option (List ItemPrice) := none
  deliveryDays : Option ℚ := none
  paymentTerms : Option String := none
  warranty : Option String := none
  notes : Option String := none
  completeness : Option ℚ := none
deriving DecidableEq

structure Vendor where
  id : String := ""
  name : String := ""
deriving DecidableEq

/-- The `proposal` argument of `evaluateProposal` (top-level structured
fields plus the `parsedData` fallback blob). -/
structure Proposal where
  vendor : Vendor := {}
  totalPrice : Option ℚ := none
  deliveryDays : Option ℚ := none
  paymentTerms : Option String := none
  warranty : Option String := none
  notes : Option String := none
  completeness : Option ℚ := none
  rawEmail : Option String := none
  parsedData : Option ParsedData := none
deriving DecidableEq

/-- `ProposalData` as assembled at the top of `evaluateProposal`
(each field read preferentially from the top level, falling back to
`parsedData` via `??`). -/
structure ProposalData where
  totalPrice : Option ℚ := none
  itemPrices : Option (List ItemPrice) := none
  deliveryDays : Option ℚ := none
  paymentTerms : Option String := none
  warranty : Option String := none
  notes : Option String := none
  completeness : Option ℚ := none
  rawEmail : Option String := none
deriving DecidableEq

/-- The `proposal.x ?? parsedData.x` resolution performed by
`evaluateProposal`. -/
def resolveProposalData (p : Proposal) : ProposalData :=
  let parsed := p.parsedData.getD {}
  { totalPrice := p.totalPrice.or parsed.totalPrice
    itemPrices := parsed.itemPrices
    deliveryDays := p.deliveryDays.or parsed.deliveryDays
    paymentTerms := p.paymentTerms.or parsed.paymentTerms
    warranty := p.warranty.or parsed.warranty
    notes := p.notes.or parsed.notes
    completeness := p.completeness.or parsed.completeness
    rawEmail := p.rawEmail }

/-! ## Criterion scorers -/

/-- Result record of `evaluatePrice` (the `reasoning` string is not
modelled; no claim concerns it). -/
structure PriceEval where
  score : ℤ
  matchesBudget : Bool
  deviation : ℚ
deriving DecidableEq

/-- The under-budget tier curve of `evaluatePrice` (argument is the absolute
deviation percentage). -/
def underBudgetScore (a : ℚ) : ℚ :=
  if a ≤ 5 then 100
  else if a ≤ 10 then 95
  else if a ≤ 20 then 85
  else if a ≤ 30 then 75
  else if a ≤ 50 then 60
  else max 30 (70 - a * 0.5)

/-- The over-budget tier curve of `evaluatePrice`. -/
def overBudgetScore (a : ℚ) : ℚ :=
  if a ≤ 5 then 95
  else if a ≤ 10 then 85
  else if a ≤ 20 then 70
  else if a ≤ 30 then 50
  else if a ≤ 50 then 30
  else max 0 (40 - a * 0.3)

/-- `evaluatePrice` of `proposalEvaluationService.ts`.  `!proposalPrice`
(absent or `0`) scores 0; `!budget` scores the neutral 80; otherwise the
piecewise deviation curve applies.  Note the `matchesBudget` flag compares
the signed deviation: `deviation <= 10`. -/
def evaluatePrice (proposalPrice budget : Option ℚ) : PriceEval :=
  match proposalPrice with
  | none => { score := 0, matchesBudget := false, deviation := 0 }
  | some p =>
    if p = 0 then { score := 0, matchesBudget := false, deviation := 0 }
    else
      match budget with
      | none => { score := 80, matchesBudget := true, deviation := 0 }
      | some b =>
        if b = 0 then { score := 80, matchesBudget := true, deviation := 0 }
        else
          let deviation := (p - b) / b * 100
          let absDeviation := |deviation|
          let score : ℚ :=
            if deviation < 0 then underBudgetScore absDeviation
            else overBudgetScore absDeviation
          { score := roundJS score
            matchesBudget := decide (deviation ≤ 10)
            deviation := (roundJS (deviation * 100) : ℚ) / 100 }

/-- Result record of `evaluateDelivery` (`daysDifference` is only present in
the main branch, as in the source). -/
structure DeliveryEval where
  score : ℤ
  meetsDeadline : Bool
  daysDifference : Option ℚ := none
deriving DecidableEq

/-- `evaluateDelivery`: a falsy proposal timeline scores 0 before the
requirement is even consulted; a falsy requirement scores the neutral 80. -/
def evaluateDelivery (proposalDeliveryDays requiredDeliveryDays : Option ℚ) : DeliveryEval :=
  match proposalDeliveryDays with
  | none => { score := 0, meetsDeadline := false }
  | some p =>
    if p = 0 then { score := 0, meetsDeadline := false }
    else
      match requiredDeliveryDays with
      | none => { score := 80, meetsDeadline := true }
      | some r =>
        if r = 0 then { score := 80, meetsDeadline := true }
        else
          let daysDifference := p - r
          let meetsDeadline := decide (daysDifference ≤ 0)
          let score : ℚ :=
            if daysDifference ≤ 0 then max 90 (min 100 (100 - |daysDifference| * 2))
            else if daysDifference ≤ 7 then 75
            else if daysDifference ≤ 14 then 60
            else if daysDifference ≤ 30 then 40
            else max 0 (30 - daysDifference / 10)
          { score := roundJS score
            meetsDeadline := meetsDeadline
            daysDifference := some daysDifference }

/-- One entry of the `itemBreakdown` produced by `matchItems`. -/
structure ItemBreakdownEntry where
  itemName : String
  requiredQuantity : Option ℤ := none
  proposedQuantity : Option ℤ := none
  matchesQuantity : Bool
  specificationsMatch : Bool
deriving DecidableEq

/-- Result record of `matchItems` / the `requirements` criterion. -/
structure RequirementsEval where
  score : ℤ
  itemsMatched : ℕ
  itemsTotal : ℕ
  itemBreakdown : List ItemBreakdownEntry
deriving DecidableEq

/-- The `${ip.quantity || ''}` template fragment of `matchItems`. -/
def quantityPart : Option ℤ → String
  | some q => if q = 0 then "" else toString q
  | none => ""

/-- The searchable `proposalText` of `matchItems`.  The source spreads the
joined item-price string into the array literal (`[...(..join(' ') || ''),
notes, rawEmail]`), so each of its characters becomes its own element and the
final `join(' ')` separates them all with spaces. -/
def buildProposalText (ips : Option (List ItemPrice))
    (proposalNotes rawEmail : Option String) : String :=
  let s := match ips with
    | none => ""
    | some l => joinArr " " (l.map (fun (ip : ItemPrice) => ip.item ++ " " ++ quantityPart ip.quantity))
  let elems := s.data.map (fun c => String.singleton c) ++
    [proposalNotes.getD "", rawEmail.getD ""]
  jsToLower (joinArr " " elems)

/-- `proposalItemPrices?.find(...)`: bidirectional substring match between
the lowered proposal item name and the lowered required name. -/
def findMatchingItem (ips : Option (List ItemPrice)) (itemNameLower : String) :
    Option ItemPrice :=
  match ips with
  | none => none
  | some l => l.find? (fun ip =>
      jsIncludes (jsToLower ip.item) itemNameLower || jsIncludes itemNameLower (jsToLower ip.item))

/-- The `matchesQuantity` flag computed per required item: with a structured
match it compares quantities (when the requirement carries a truthy
quantity); with only a fuzzy text find it is `!rfpItem.quantity ||
fuzzyMatch`. -/
def itemMatchesQuantity (mp : Option ItemPrice) (proposalText : String)
    (it : RequirementItem) : Bool :=
  match mp with
  | some m => if qtyTruthy it.quantity then m.quantity == it.quantity else true
  | none => !qtyTruthy it.quantity || jsIncludes proposalText (jsToLower it.name)

/-- The `specificationsMatch` flag: some token of the specification longer
than 3 characters occurs in the proposal text; vacuously true without
specifications. -/
def itemSpecsMatch (proposalText : String) (it : RequirementItem) : Bool :=
  match it.specifications with
  | some s =>
    if s ≠ "" then
      (splitWsJS (jsToLower s)).any
        (fun keyword => jsIncludes proposalText keyword && keyword.length > 3)
    else true
  | none => true

/-- `itemMatch`: a structured line-item match or a fuzzy occurrence of the
name in the proposal text. -/
def itemFound (mp : Option ItemPrice) (proposalText : String)
    (it : RequirementItem) : Bool :=
  mp.isSome || jsIncludes proposalText (jsToLower it.name)

/-- The condition under which the `matchItems` loop increments
`itemsMatched`. -/
def itemCounted (ips : Option (List ItemPrice)) (proposalText : String)
    (it : RequirementItem) : Bool :=
  let mp := findMatchingItem ips (jsToLower it.name)
  itemFound mp proposalText it &&
    (itemMatchesQuantity mp proposalText it || !qtyTruthy it.quantity) &&
    (itemSpecsMatch proposalText it || !strTruthy it.specifications)

/-- The breakdown entry pushed for one required item. -/
def itemEntry (ips : Option (List ItemPrice)) (proposalText : String)
    (it : RequirementItem) : ItemBreakdownEntry :=
  let mp := findMatchingItem ips (jsToLower it.name)
  { itemName := it.name
    requiredQuantity := it.quantity
    proposedQuantity := match mp with | some m => m.quantity | none => none
    matchesQuantity := itemMatchesQuantity mp proposalText it
    specificationsMatch := itemSpecsMatch proposalText it }

/-- `matchItems` of `proposalEvaluationService.ts`.  The source's single
loop both pushes a breakdown entry and counts matches; here the two are a
`map` and a `filter` over the same item list with the same per-item
functions. -/
def matchItems (rfpItems : List RequirementItem)
    (proposalItemPrices : Option (List ItemPrice))
    (proposalNotes rawEmail : Option String) : RequirementsEval :=
  if rfpItems.isEmpty then
    { score := 100, itemsMatched := 0, itemsTotal := 0, itemBreakdown := [] }
  else
    let proposalText := buildProposalText proposalItemPrices proposalNotes rawEmail
    let itemsMatched := (rfpItems.filter (itemCounted proposalItemPrices proposalText)).length
    { score := roundJS ((itemsMatched : ℚ) / rfpItems.length * 100)
      itemsMatched := itemsMatched
      itemsTotal := rfpItems.length
      itemBreakdown := rfpItems.map (itemEntry proposalItemPrices proposalText) }

/-- Result record of `evaluatePaymentTerms`. -/
structure TermsEval where
  score : ℤ
  «matches» : Bool
deriving DecidableEq

/-- The fixed payment-terms keyword vocabulary. -/
def paymentKeywords : List String :=
  ["net", "days", "30", "60", "90", "advance", "upon delivery", "installment"]

/-- `evaluatePaymentTerms`: missing terms → 50, no requirement → 80, else
keyword overlap (falling back to bidirectional containment when the
requirement holds no keyword); match → 100, else 60. -/
def evaluatePaymentTerms (proposalTerms requiredTerms : Option String) : TermsEval :=
  match proposalTerms with
  | none => { score := 50, «matches» := false }
  | some pt =>
    if pt = "" then { score := 50, «matches» := false }
    else
      match requiredTerms with
      | none => { score := 80, «matches» := true }
      | some rt =>
        if rt = "" then { score := 80, «matches» := true }
        else
          let proposalLower := jsToLower pt
          let requiredLower := jsToLower rt
          let proposalKeywords := paymentKeywords.filter (fun k => jsIncludes proposalLower k)
          let requiredKeywords := paymentKeywords.filter (fun k => jsIncludes requiredLower k)
          let «matches» :=
            if requiredKeywords.length > 0 then
              requiredKeywords.any (fun k => proposalKeywords.contains k)
            else
              jsIncludes proposalLower requiredLower || jsIncludes requiredLower proposalLower
          { score := if «matches» then 100 else 60, «matches» := «matches» }

/-- Result record of `evaluateWarranty`. -/
structure WarrantyEval where
  score : ℤ
  meetsRequirement : Bool
deriving DecidableEq

/-- JavaScript `s.match(/(\d+)/)` followed by `parseInt`: the first maximal
run of decimal digits in the string. -/
def firstNat (s : String) : Option ℕ :=
  let ds := (s.toList.dropWhile (fun c => !c.isDigit)).takeWhile Char.isDigit
  if ds.isEmpty then none
  else some (ds.foldl (fun n c => n * 10 + (c.toNat - 48)) 0)

/-- `evaluateWarranty`: missing → 50, no requirement → 80; compare the first
integers of the two strings when both exist (≥ → 100 else 50), otherwise
bidirectional substring fallback (→ 100 else 60). -/
def evaluateWarranty (proposalWarranty requiredWarranty : Option String) : WarrantyEval :=
  match proposalWarranty with
  | none => { score := 50, meetsRequirement := false }
  | some pw =>
    if pw = "" then { score := 50, meetsRequirement := false }
    else
      match requiredWarranty with
      | none => { score := 80, meetsRequirement := true }
      | some rw =>
        if rw = "" then { score := 80, meetsRequirement := true }
        else
          match firstNat pw, firstNat rw with
          | some proposalValue, some requiredValue =>
            let meets := decide (proposalValue ≥ requiredValue)
            { score := if meets then 100 else 50, meetsRequirement := meets }
          | _, _ =>
            let «matches» := jsIncludes (jsToLower pw) (jsToLower rw) || jsIncludes (jsToLower rw) (jsToLower pw)
            { score := if «matches» then 100 else 60, meetsRequirement := «matches» }

/-- Result record of `evaluateCompleteness`. -/
structure CompletenessEval where
  score : ℤ
deriving DecidableEq

/-- `evaluateCompleteness`: `null`/`undefined` → 50 (an explicit nullness
check, not truthiness), otherwise `round(completeness * 100)`. -/
def evaluateCompleteness (completeness : Option ℚ) : CompletenessEval :=
  match completeness with
  | none => { score := 50 }
  | some c => { score := roundJS (c * 100) }

/-- Result record of `evaluateOtherRequirements`. -/
structure OtherReqEval where
  score : ℤ
  «matches» : ℕ
  total : ℕ
  missing : List String
deriving DecidableEq

/-- Whether one free-form requirement string is addressed: some token longer
than 3 characters occurs in the proposal text. -/
def otherReqAddressed (proposalText : String) (requirement : String) : Bool :=
  ((splitWsJS (jsToLower requirement)).filter (fun w => w.length > 3)).any
    (fun keyword => jsIncludes proposalText keyword)

/-- `evaluateOtherRequirements`: vacuous 100 without requirements, else the
percentage of requirement strings addressed, plus the unaddressed ones. -/
def evaluateOtherRequirements (proposalNotes rawEmail : Option String)
    (otherRequirements : Option (List String)) : OtherReqEval :=
  match otherRequirements with
  | none => { score := 100, «matches» := 0, total := 0, missing := [] }
  | some reqs =>
    if reqs.isEmpty then { score := 100, «matches» := 0, total := 0, missing := [] }
    else
      let proposalText := jsToLower (joinArr " " [proposalNotes.getD "", rawEmail.getD ""])
      let matched := (reqs.filter (otherReqAddressed proposalText)).length
      { score := roundJS ((matched : ℚ) / reqs.length * 100)
        «matches» := matched
        total := reqs.length
        missing := reqs.filter (fun r => !otherReqAddressed proposalText r) }

/-! ## Overall score -/

/-- The seven fixed criterion weights of `calculateOverallScore`. -/
structure EvaluationWeights where
  price : ℚ
  delivery : ℚ
  requirements : ℚ
  paymentTerms : ℚ
  warranty : ℚ
  completeness : ℚ
  otherRequirements : ℚ

/-- The `weights` constant of `calculateOverallScore`. -/
def evaluationWeights : EvaluationWeights :=
  { price := 0.25, delivery := 0.20, requirements := 0.30, paymentTerms := 0.05
    warranty := 0.10, completeness := 0.05, otherRequirements := 0.05 }

/-- The seven criterion results of one evaluation. -/
structure EvaluationCriteria where
  price : PriceEval
  delivery : DeliveryEval
  requirements : RequirementsEval
  paymentTerms : TermsEval
  warranty : WarrantyEval
  completeness : CompletenessEval
  otherRequirements : OtherReqEval
deriving DecidableEq

/-- `calculateOverallScore`: round of the weighted sum. -/
def calculateOverallScore (criteria : EvaluationCriteria) : ℤ :=
  roundJS
    ((criteria.price.score : ℚ) * evaluationWeights.price +
     (criteria.delivery.score : ℚ) * evaluationWeights.delivery +
     (criteria.requirements.score : ℚ) * evaluationWeights.requirements +
     (criteria.paymentTerms.score : ℚ) * evaluationWeights.paymentTerms +
     (criteria.warranty.score : ℚ) * evaluationWeights.warranty +
     (criteria.completeness.score : ℚ) * evaluationWeights.completeness +
     (criteria.otherRequirements.score : ℚ) * evaluationWeights.otherRequirements)

/-- A proposal evaluation (the derived `strengths`/`weaknesses`/`concerns`
string lists of `generateFeedback` are not modelled; no claim concerns
them). -/
structure ProposalEvaluation where
  vendorId : String
  vendorName : String
  overallScore : ℤ
  criteria : EvaluationCriteria
deriving DecidableEq

/-- `evaluateProposal`: resolve the proposal data, compute the seven
criteria (note the `|| undefined` collapses on the requirement-side
arguments) and combine them. -/
def evaluateProposal (proposal : Proposal) (rfp : RFP) : ProposalEvaluation :=
  let d := resolveProposalData proposal
  let criteria : EvaluationCriteria :=
    { price := evaluatePrice d.totalPrice rfp.budget
      delivery := evaluateDelivery d.deliveryDays (orUndefinedQ rfp.requirements.deliveryDays)
      requirements := matchItems (rfp.requirements.items.getD []) d.itemPrices d.notes d.rawEmail
      paymentTerms := evaluatePaymentTerms d.paymentTerms (orUndefinedS rfp.requirements.paymentTerms)
      warranty := evaluateWarranty d.warranty (orUndefinedS rfp.requirements.warranty)
      completeness := evaluateCompleteness d.completeness
      otherRequirements := evaluateOtherRequirements d.notes d.rawEmail rfp.requirements.otherRequirements }
  { vendorId := proposal.vendor.id
    vendorName := proposal.vendor.name
    overallScore := calculateOverallScore criteria
    criteria := criteria }

/-! ## Part 2: the draft reconciler (`normalizeRfpDraft`)

The reconciler operates on untyped JSON-like drafts.  The embedding uses a
typed domain covering every shape the function distinguishes:

* `JsOpt α` is the presence state of one object key: absent, present with
  value `undefined`, present with value `null`, or an actual value.  The
  object spread `{...e, ...u}` keeps `e`'s state only for keys absent in
  `u` (`jsOverride`); a present-`undefined` key overrides.
* `budget` may be a number or a string; the legacy top-level `items` a
  string or an array; `deliveryRequirements` a string or a number;
  `requirements` a string or an object (`ReqField`).
* Items inside an `items` array are records with a mandatory `name`;
  drafts whose item entries lack a name, and non-string/array/object
  values in the fields above, are outside the modelled domain.
* `JSON.parse` as applied to a requirements string / an items string is an
  opaque collaborator: the definitions are parametrised over partial parse
  functions (`none` models a parse that throws, or yields a value outside
  the canonical shape).
* The source is an ES module, hence strict mode: assigning a property on a
  primitive string (reached when the fragment pairs a truthy non-object
  `requirements` with top-level `items`/`deliveryRequirements` data) throws
  a `TypeError`.  `normalizeRfpDraft` therefore returns `Option`: `none`
  models the call throwing.
* The returned triple also carries the post-call states of the two argument
  objects, because `update = {...draftUpdate}` aliases the fragment's
  nested `requirements` object: in-place writes to it are visible to the
  caller.  The existing draft is only read and shallow-copied, never
  written through.
-/

/-- Presence state of one key of a JavaScript object. -/
inductive JsOpt (α : Type) where
  | missing
  | undef
  | nullv
  | val (a : α)
deriving DecidableEq

/-- Per-key effect of the object spread `{...e, ...u}`. -/
def jsOverride {α : Type} (e u : JsOpt α) : JsOpt α :=
  match u with
  | .missing => e
  | _ => u

/-- A requirement item of a draft (only `name` takes part in
deduplication). -/
structure DraftItem where
  name : String
  quantity : Option ℚ := none
  specifications : Option String := none
deriving DecidableEq

/-- The canonical `requirements` sub-object of a draft. -/
structure DraftRequirements where
  items : JsOpt (List DraftItem) := .missing
  deliveryDays : JsOpt ℚ := .missing
  paymentTerms : JsOpt String := .missing
  warranty : JsOpt String := .missing
  otherRequirements : JsOpt (List String) := .missing
deriving DecidableEq

/-- The `requirements` key of a draft: absent, `undefined`, `null`, a raw
string (not yet parsed), or an object. -/
inductive ReqField where
  | missing
  | undef
  | nullv
  | str (s : String)
  | obj (r : DraftRequirements)
deriving DecidableEq

/-- A `budget` value: number or string. -/
inductive BudgetVal where
  | num (q : ℚ)
  | str (s : String)
deriving DecidableEq

/-- A legacy top-level `items` value: string or array. -/
inductive ItemsVal where
  | str (s : String)
  | arr (xs : List DraftItem)
deriving DecidableEq

/-- A legacy top-level `deliveryRequirements` value: string or number. -/
inductive DeliveryReqVal where
  | num (q : ℚ)
  | str (s : String)
deriving DecidableEq

/-- An RFP draft (also the shape of an incoming fragment and of the
function's local `update` copy). -/
structure Draft where
  title : JsOpt String := .missing
  description : JsOpt String := .missing
  budget : JsOpt BudgetVal := .missing
  deadline : JsOpt String := .missing
  requirements : ReqField := .missing
  items : JsOpt ItemsVal := .missing
  deliveryRequirements : JsOpt DeliveryReqVal := .missing
  vendorsSelected : JsOpt (List String) := .missing
  missingFields : JsOpt (List String) := .missing
deriving DecidableEq

/-- The empty object fragment `{}`. -/
def emptyDraft : Draft := {}

/-- Truthiness of the `requirements` field (an object is always truthy, a
string iff non-empty). -/
def reqFieldTruthy : ReqField → Bool
  | .obj _ => true
  | .str s => s != ""
  | _ => false

/-- Truthiness of `update.items`. -/
def itemsValTruthy : JsOpt ItemsVal → Bool
  | .val (.str s) => s != ""
  | .val (.arr _) => true
  | _ => false

/-- Truthiness of the optional-chain access `update.requirements?.items`
(an array, even empty, is truthy; anything else the access yields is
falsy). -/
def reqItemsAccessorTruthy : ReqField → Bool
  | .obj r => match r.items with
    | .val _ => true
    | _ => false
  | _ => false

/-- Truthiness of `update.deliveryRequirements`. -/
def drValTruthy : JsOpt DeliveryReqVal → Bool
  | .val (.str s) => s != ""
  | .val (.num q) => q != 0
  | _ => false

/-- Truthiness of `update.requirements?.deliveryDays`. -/
def reqDeliveryAccessorTruthy : ReqField → Bool
  | .obj r => match r.deliveryDays with
    | .val q => q != 0
    | _ => false
  | _ => false

/-- Digit run to number. -/
def digitsToNat (ds : List Char) : ℕ :=
  ds.foldl (fun n c => n * 10 + (c.toNat - 48)) 0

/-- Split an optional leading sign. -/
def splitSign : List Char → Bool × List Char
  | '-' :: t => (true, t)
  | '+' :: t => (false, t)
  | cs => (false, cs)

/-- Value of a hexadecimal digit, if any. -/
def hexDigitVal (c : Char) : Option ℕ :=
  if c.isDigit then some (c.toNat - 48)
  else if 'a' ≤ c && c ≤ 'f' then some (c.toNat - 97 + 10)
  else if 'A' ≤ c && c ≤ 'F' then some (c.toNat - 65 + 10)
  else none

/-- JavaScript `parseInt(s)` (radix 10, or 16 after a `0x`/`0X` prefix):
leading whitespace and sign, then the longest digit prefix; `none` models
`NaN`. -/
def parseIntJS (s : String) : Option ℤ :=
  let cs := s.toList.dropWhile Char.isWhitespace
  let (neg, cs1) := splitSign cs
  let core : Option ℕ :=
    match cs1 with
    | '0' :: 'x' :: t | '0' :: 'X' :: t =>
      let hs := t.takeWhile (fun c => (hexDigitVal c).isSome)
      if hs.isEmpty then none
      else some (hs.foldl (fun n c => n * 16 + (hexDigitVal c).getD 0) 0)
    | _ =>
      let ds := cs1.takeWhile Char.isDigit
      if ds.isEmpty then none else some (digitsToNat ds)
  core.map (fun n => if neg then -(n : ℤ) else (n : ℤ))

/-- JavaScript `parseFloat(s)`: leading whitespace and sign, a decimal
mantissa (digits, optionally with a fractional part), an optional exponent;
`none` models `NaN`.  (`Infinity` literals are outside the modelled
domain.) -/
def parseFloatJS (s : String) : Option ℚ :=
  let cs := s.toList.dropWhile Char.isWhitespace
  let (neg, cs1) := splitSign cs
  let ip := cs1.takeWhile Char.isDigit
  let rest1 := cs1.dropWhile Char.isDigit
  let (fp, rest2) :=
    match rest1 with
    | '.' :: t => (t.takeWhile Char.isDigit, t.dropWhile Char.isDigit)
    | _ => ([], rest1)
  if ip.isEmpty && fp.isEmpty then none
  else
    let mantissa : ℚ := (digitsToNat ip : ℚ) + (digitsToNat fp : ℚ) / (10 ^ fp.length)
    let exp : ℤ :=
      match rest2 with
      | 'e' :: t | 'E' :: t =>
        let (eneg, t1) := splitSign t
        let ed := t1.takeWhile Char.isDigit
        if ed.isEmpty then 0
        else if eneg then -(digitsToNat ed : ℤ) else (digitsToNat ed : ℤ)
      | _ => 0
    some ((if neg then -1 else 1) * mantissa * (10 : ℚ) ^ exp)

/-- Rule 1 of the reconciler, applied to the existing side: a truthy string
`requirements` is `JSON.parse`d in a `try`; success replaces it, failure
deletes the key.  (A falsy `""` string is skipped by the truthiness
guard.) -/
def ruleOneRequirements (parseReq : String → Option DraftRequirements) :
    ReqField → ReqField
  | .str s =>
    if s ≠ "" then
      match parseReq s with
      | some r => .obj r
      | none => .missing
    else .str s
  | f => f

/-- Keep-first deduplication by exact (`===`) name equality: the JS
`filter((item, index, self) => index === self.findIndex((i) => i.name ===
item.name))` keeps exactly the items with no earlier same-name occurrence.
This structural recursion computes the same list: the head always stays,
and of the tail exactly those items survive that have no earlier same-name
occurrence there and do not repeat the head's name. -/
def dedupByName : List DraftItem → List DraftItem
  | [] => []
  | x :: xs => x :: (dedupByName xs).filter (fun y => y.name != x.name)

/-- The item list a truthy top-level `items` value turns into: JSON
strings are parsed with a synthetic-item fallback, arrays are taken
as-is. -/
def itemsToList (parseItems : String → Option (List DraftItem)) :
    JsOpt ItemsVal → List DraftItem
  | .val (.str s) => (parseItems s).getD [{ name := s }]
  | .val (.arr xs) => xs
  | _ => []

/-- The items-normalization block: move a truthy top-level `items` into
`requirements.items` (parsing JSON strings with a synthetic-item fallback)
and delete it.  `none` models the strict-mode `TypeError` thrown when
`update.requirements` is a truthy string primitive. -/
def itemsBlock (parseItems : String → Option (List DraftItem)) (u : Draft) :
    Option Draft :=
  if itemsValTruthy u.items && !reqItemsAccessorTruthy u.requirements then
    match u.requirements with
    | .obj r =>
      some { u with requirements := .obj { r with items := .val (itemsToList parseItems u.items) },
                    items := .missing }
    | .str s =>
      if s = "" then
        some { u with requirements := .obj { items := .val (itemsToList parseItems u.items) },
                      items := .missing }
      else none
    | _ =>
      some { u with requirements := .obj { items := .val (itemsToList parseItems u.items) },
                    items := .missing }
  else some u

/-- The parsed `deliveryDays` value of the `deliveryRequirements` block:
strings via `parseInt`, numbers as-is (`none` is `NaN`). -/
def drParsedDays : JsOpt DeliveryReqVal → Option ℚ
  | .val (.str s) => (parseIntJS s).map (fun n => (n : ℚ))
  | .val (.num q) => some q
  | _ => none

/-- `if (!update.requirements) update.requirements = {}` — the fresh
requirements object ensured by the `deliveryRequirements` block. -/
def ensureReqObj (f : ReqField) : ReqField :=
  if reqFieldTruthy f then f else .obj {}

/-- The `deliveryRequirements` block: ensure a `requirements` object exists
(even when the parse below fails), parse the value, assign it when not
`NaN`, and delete the top-level key.  `none` again models the strict-mode
`TypeError` on a truthy string `requirements` (only a string can reach the
mismatching case: `ensureReqObj` yields an object for every falsy
value). -/
def drBlock (u : Draft) : Option Draft :=
  if drValTruthy u.deliveryRequirements && !reqDeliveryAccessorTruthy u.requirements then
    match drParsedDays u.deliveryRequirements, ensureReqObj u.requirements with
    | none, req0 => some { u with requirements := req0, deliveryRequirements := .missing }
    | some q, .obj r =>
      some { u with requirements := .obj { r with deliveryDays := .val q },
                    deliveryRequirements := .missing }
    | some _, _ => none
  else some u

/-- The `budget` normalization: `''` and `null` are deleted; other strings
are `parseFloat`ed, a `NaN` result leaving the key present with value
`undefined`. -/
def budgetBlock (u : Draft) : Draft :=
  match u.budget with
  | .val (.str s) =>
    if s = "" then { u with budget := .missing }
    else
      match parseFloatJS s with
      | some q => { u with budget := .val (.num q) }
      | none => { u with budget := .undef }
  | .nullv => { u with budget := .missing }
  | _ => u

/-- The `deadline` normalization: `''` and `null` are deleted. -/
def deadlineBlock (u : Draft) : Draft :=
  match u.deadline with
  | .val s => if s = "" then { u with deadline := .missing } else u
  | .nullv => { u with deadline := .missing }
  | _ => u

/-- Named sub-fields contributed by a `requirements` value to an object
spread (a string spreads only numeric-index junk keys, so everything that
is not an object contributes none). -/
def reqNamedFields : ReqField → DraftRequirements
  | .obj r => r
  | _ => {}

/-- `x?.items || []`. -/
def reqItemsList : ReqField → List DraftItem
  | .obj r =>
    match r.items with
    | .val xs => xs
    | _ => []
  | _ => []

/-- The final merge `{...existing, ...update, requirements: ...}`: incoming
scalar keys override, `requirements` is merged key-wise with the two
`items` lists concatenated (existing first) and deduplicated keep-first;
when neither side has a truthy `requirements` the key is explicitly
`undefined`. -/
def mergeDrafts (nE u : Draft) : Draft :=
  let mergedReq : ReqField :=
    if reqFieldTruthy u.requirements || reqFieldTruthy nE.requirements then
      let e := reqNamedFields nE.requirements
      let uf := reqNamedFields u.requirements
      .obj { items := .val (dedupByName (reqItemsList nE.requirements ++ reqItemsList u.requirements))
             deliveryDays := jsOverride e.deliveryDays uf.deliveryDays
             paymentTerms := jsOverride e.paymentTerms uf.paymentTerms
             warranty := jsOverride e.warranty uf.warranty
             otherRequirements := jsOverride e.otherRequirements uf.otherRequirements }
    else .undef
  { title := jsOverride nE.title u.title
    description := jsOverride nE.description u.description
    budget := jsOverride nE.budget u.budget
    deadline := jsOverride nE.deadline u.deadline
    requirements := mergedReq
    items := jsOverride nE.items u.items
    deliveryRequirements := jsOverride nE.deliveryRequirements u.deliveryRequirements
    vendorsSelected := jsOverride nE.vendorsSelected u.vendorsSelected
    missingFields := jsOverride nE.missingFields u.missingFields }

/-- `normalizeRfpDraft(existingDraft, draftUpdate)`.

Returns `(result, postExisting, postUpdate)`:
* `result` is the merged draft (`none` when the call throws);
* `postExisting` is the state of the `existingDraft` argument after the
  call — the source only shallow-copies and reads it, so it is returned
  unchanged;
* `postUpdate` is the state of the `draftUpdate` argument after the call:
  its nested `requirements` object is aliased by the shallow copy, so the
  in-place writes of the items/deliveryRequirements blocks surface here. -/
def normalizeRfpDraft (parseReq : String → Option DraftRequirements)
    (parseItems : String → Option (List DraftItem))
    (existingDraft : Draft) (draftUpdate : JsOpt Draft) :
    Option Draft × Draft × JsOpt Draft :=
  let nE : Draft :=
    { existingDraft with
      requirements := ruleOneRequirements parseReq existingDraft.requirements }
  match draftUpdate with
  | .val d =>
    match itemsBlock parseItems d with
    | none => (none, existingDraft, draftUpdate)
    | some u1 =>
      match drBlock u1 with
      | none => (none, existingDraft, draftUpdate)
      | some u2 =>
        let u3 := deadlineBlock (budgetBlock u2)
        let post : JsOpt Draft :=
          match d.requirements with
          | .obj _ => .val { d with requirements := u2.requirements }
          | _ => draftUpdate
        (some (mergeDrafts nE u3), existingDraft, post)
  | _ => (some nE, existingDraft, draftUpdate)

/-! ## Part 3: comparison-cache validity (`GET /compare/:rfpId`) -/

/-- A stored proposal as seen by the cache check (only `updatedAt`
matters; timestamps are rationals). -/
structure StoredProposal where
  updatedAt : Option ℚ := none
deriving DecidableEq

/-- `cachedComparison.evaluations?.length || 0` (a missing list and an
empty list both yield 0). -/
def cachedProposalCount {α : Type} (evaluations : Option (List α)) : ℕ :=
  match evaluations with
  | none => 0
  | some l => l.length

/-- The `reduce` computing the latest proposal update timestamp (`null`
when no proposal carries one). -/
def lastProposalUpdate (proposals : List StoredProposal) : Option ℚ :=
  proposals.foldl
    (fun latest proposal =>
      match latest, proposal.updatedAt with
      | none, pu => pu
      | some l, none => some l
      | some l, some pu => if pu > l then some pu else some l)
    none

/-- The cache-validity test of the compare route: the cached evaluation
count equals the current proposal count, and the cache timestamp is not
older than the latest proposal update (vacuously true when no proposal has
one). -/
def isCacheValid {α : Type} (evaluations : Option (List α)) (cacheUpdatedAt : ℚ)
    (proposals : List StoredProposal) : Bool :=
  (cachedProposalCount evaluations == proposals.length) &&
    (match lastProposalUpdate proposals with
     | none => true
     | some l => decide (cacheUpdatedAt ≥ l))

/-- Is the `requirements` key an object? -/
def isReqObj : ReqField → Bool
  | .obj _ => true
  | _ => false

/-- The condition under which `normalizeRfpDraft` writes through the alias
into the fragment's nested `requirements` object: the fragment's
`requirements` is an object (so the shallow copy shares it) and a truthy
top-level `items` (resp. `deliveryRequirements`) is folded into it because
the corresponding sub-key is falsy.  (On the `deliveryRequirements` side
this over-approximates: a failed parse reaches no assignment.) -/
def mutatesFragmentRequirements (d : Draft) : Bool :=
  isReqObj d.requirements &&
    ((itemsValTruthy d.items && !reqItemsAccessorTruthy d.requirements) ||
     (drValTruthy d.deliveryRequirements && !reqDeliveryAccessorTruthy d.requirements))

/-- A `JSON.parse` stand-in for concrete instances: fails on every input.
(The concrete drafts below either reach no parse call at all, or reach it
with a string that is not JSON, where `JSON.parse` throws.) -/
def parseReqNone : String → Option DraftRequirements := fun _ => none

/-- A `JSON.parse` stand-in for item-list strings; see `parseReqNone`. -/
def parseItemsNone : String → Option (List DraftItem) := fun _ => none

/-! ## Helper lemmas -/

theorem roundJS_lb {q : ℚ} {lo : ℤ} (h : (lo : ℚ) ≤ q) : lo ≤ roundJS q := by
  unfold roundJS
  exact Int.le_floor.mpr (by linarith)

theorem roundJS_ub {q : ℚ} {hi : ℤ} (h : q ≤ (hi : ℚ)) : roundJS q ≤ hi := by
  unfold roundJS
  calc ⌊q + 1/2⌋ ≤ ⌊(hi : ℚ) + 1/2⌋ := Int.floor_mono (by linarith)
    _ = hi + ⌊(1/2 : ℚ)⌋ := Int.floor_int_add hi (1/2)
    _ = hi := by norm_num

theorem roundJS_mono {a b : ℚ} (h : a ≤ b) : roundJS a ≤ roundJS b :=
  Int.floor_mono (by linarith)

/-! ## Claim C7 -/

/-- Claim C7: for every proposal whose delivery days are absent, the
delivery criterion scores 0, whatever the RFP's delivery requirement is
(including none) — the missing-proposal-field rule precedes the neutral
no-requirement rule. -/
theorem C7_missing_delivery_scores_zero (requiredDeliveryDays : Option ℚ) :
    (evaluateDelivery none requiredDeliveryDays).score = 0 := rfl

/-! ## Claim C9 -/

/-- Claim C9 counterexample: at price 50 and budget 100 the absolute
deviation is 50 % — far above 10 % — yet `matchesBudget` is `true`,
because the source compares the signed deviation (`deviation <= 10`). -/
theorem C9_counterexample :
    (evaluatePrice (some 50) (some 100)).matchesBudget = true ∧
      ¬(|((50 : ℚ) - 100) / 100 * 100| ≤ 10) := by
  constructor
  · norm_num [evaluatePrice]
  · norm_num

/-- Claim C9 amended: for every nonzero price `p` and nonzero budget `b`,
`matchesBudget` is true iff the *signed* deviation `((p - b) / b) * 100`
is at most 10 — any under-budget price matches, however far under. -/
theorem C9_matchesBudget_signed_deviation (p b : ℚ) (hp : p ≠ 0) (hb : b ≠ 0) :
    ((evaluatePrice (some p) (some b)).matchesBudget = true ↔ (p - b) / b * 100 ≤ 10) := by
  simp only [evaluatePrice, if_neg hp, if_neg hb]
  exact decide_eq_true_iff

/-- Claim C9 witness: the amended statement at price 105, budget 100. -/
theorem C9_witness :
    ((evaluatePrice (some 105) (some 100)).matchesBudget = true ↔
      ((105 : ℚ) - 100) / 100 * 100 ≤ 10) :=
  C9_matchesBudget_signed_deviation 105 100 (by norm_num) (by norm_num)

/-! ## Claim C10 -/

/-- Claim C10 counterexample: a required item "laptop" with required
quantity 20 has no structured line-item match (there are no item prices)
and is found only in the free-text notes; no proposal quantity is supplied
(`proposedQuantity` is absent), yet the item counts as matched
(`itemsMatched = 1`), contradicting the claim that it must not. -/
theorem C10_counterexample :
    (matchItems [{ name := "laptop", quantity := some 20 }] none
        (some "our laptop offer") none).itemsMatched = 1 ∧
    (matchItems [{ name := "laptop", quantity := some 20 }] none
        (some "our laptop offer") none).itemBreakdown.map
      ItemBreakdownEntry.proposedQuantity = [none] := by
  constructor
  · decide
  · decide

/-- Claim C10 amended: a required item that has no structured line-item
match and is found by the fuzzy scan of the proposal text counts as
matched whenever its specification check passes — the quantity requirement
is waived, because the fuzzy find itself satisfies the quantity flag
(`matchesQuantity = !rfpItem.quantity || fuzzyMatch`). -/
theorem C10_fuzzy_find_waives_quantity (ips : Option (List ItemPrice))
    (notes rawEmail : Option String) (it : RequirementItem)
    (hstruct : findMatchingItem ips (jsToLower it.name) = none)
    (hfuzzy : jsIncludes (buildProposalText ips notes rawEmail) (jsToLower it.name) = true)
    (hspec : (itemSpecsMatch (buildProposalText ips notes rawEmail) it ||
        !strTruthy it.specifications) = true) :
    itemCounted ips (buildProposalText ips notes rawEmail) it = true ∧
    itemMatchesQuantity (findMatchingItem ips (jsToLower it.name))
      (buildProposalText ips notes rawEmail) it = true ∧
    (matchItems [it] ips notes rawEmail).itemsMatched = 1 := by
  have hq0 : itemMatchesQuantity none (buildProposalText ips notes rawEmail) it = true := by
    unfold itemMatchesQuantity
    rw [hfuzzy]
    simp
  have hq : itemMatchesQuantity (findMatchingItem ips (jsToLower it.name))
      (buildProposalText ips notes rawEmail) it = true := by
    rw [hstruct]
    exact hq0
  have hc : itemCounted ips (buildProposalText ips notes rawEmail) it = true := by
    unfold itemCounted itemFound
    rw [hstruct]
    simp [hq0, hfuzzy, hspec]
  refine ⟨hc, hq, ?_⟩
  unfold matchItems
  simp [hc]

/-- Claim C10 witness: the amended statement at the concrete
counterexample input (no structured items, fuzzy find in the notes, no
specifications). -/
theorem C10_witness :
    itemCounted none (buildProposalText none (some "our laptop offer") none)
      { name := "laptop", quantity := some 20 } = true ∧
    itemMatchesQuantity (findMatchingItem none (jsToLower "laptop"))
      (buildProposalText none (some "our laptop offer") none)
      { name := "laptop", quantity := some 20 } = true ∧
    (matchItems [{ name := "laptop", quantity := some 20 }] none
      (some "our laptop offer") none).itemsMatched = 1 :=
  C10_fuzzy_find_waives_quantity none (some "our laptop offer") none
    { name := "laptop", quantity := some 20 } (by decide) (by decide) (by decide)

/-! ## Claim C2 -/

/-- Claim C2 counterexample: merging an existing draft whose requirements
hold an item named "Laptop" with a fragment holding an item named "laptop"
yields TWO items, not one — the deduplication compares names with `===`,
without lower-casing or trimming. -/
theorem C2_counterexample :
    ((normalizeRfpDraft parseReqNone parseItemsNone
        { requirements := .obj { items := .val [{ name := "Laptop" }] } }
        (.val { requirements := .obj { items := .val [{ name := "laptop" }] } })).1).map
      (fun m => reqItemsList m.requirements) =
      some [{ name := "Laptop" }, { name := "laptop" }] ∧
    ([{ name := "Laptop" }, { name := "laptop" }] : List DraftItem).length ≠ 1 := by
  constructor
  · decide
  · decide

/-- Claim C2 amended: the merge deduplicates requirement items by *exact*
(case- and whitespace-sensitive) name equality, keeping the first
occurrence: merging an existing item with an incoming item of the same
exact name yields exactly the existing item. -/
theorem C2_dedup_exact_name_keeps_first
    (parseReq : String → Option DraftRequirements)
    (parseItems : String → Option (List DraftItem))
    (x y : DraftItem) (hname : y.name = x.name) :
    ((normalizeRfpDraft parseReq parseItems
        { requirements := .obj { items := .val [x] } }
        (.val { requirements := .obj { items := .val [y] } })).1).map
      (fun m => reqItemsList m.requirements) = some [x] := by
  unfold normalizeRfpDraft itemsBlock drBlock
  simp only [itemsValTruthy, drValTruthy, Bool.false_and, Bool.and_eq_true, if_neg,
    Bool.false_eq_true, reduceIte]
  unfold budgetBlock deadlineBlock mergeDrafts
  simp only [reqFieldTruthy, Bool.true_or, if_pos]
  unfold reqItemsList dedupByName dedupByName
  simp [ruleOneRequirements, reqNamedFields, List.filter, hname]

/-- Claim C2 witness: the amended statement at two items both named
"Laptop" (the incoming one carrying a quantity): only the existing item
survives. -/
theorem C2_witness :
    ((normalizeRfpDraft parseReqNone parseItemsNone
        { requirements := .obj { items := .val [{ name := "Laptop" }] } }
        (.val { requirements := .obj { items := .val [{ name := "Laptop", quantity := some 40 }] } })).1).map
      (fun m => reqItemsList m.requirements) = some [{ name := "Laptop" }] :=
  C2_dedup_exact_name_keeps_first parseReqNone parseItemsNone
    { name := "Laptop" } { name := "Laptop", quantity := some 40 } rfl

/-! ## Claim C3 -/

/-- The existing-draft argument is only read and shallow-copied: its
post-call state equals its pre-call state on every path. -/
theorem normalize_post_existing (parseReq : String → Option DraftRequirements)
    (parseItems : String → Option (List DraftItem)) (A : Draft) (du : JsOpt Draft) :
    (normalizeRfpDraft parseReq parseItems A du).2.1 = A := by
  cases du with
  | val d =>
    unfold normalizeRfpDraft
    cases hib : itemsBlock parseItems d with
    | none => simp only [hib]
    | some u1 =>
      cases hdb : drBlock u1 with
      | none => simp only [hib, hdb]
      | some u2 => simp only [hib, hdb]
  | missing => rfl
  | undef => rfl
  | nullv => rfl

/-- When the items guard is false the items block is the identity. -/
theorem itemsBlock_id (parseItems : String → Option (List DraftItem)) {d : Draft}
    (hg : (itemsValTruthy d.items && !reqItemsAccessorTruthy d.requirements) = false) :
    itemsBlock parseItems d = some d := by
  unfold itemsBlock
  rw [if_neg (by simp [hg])]

/-- When the deliveryRequirements guard is false the block is the
identity. -/
theorem drBlock_id {d : Draft}
    (hg : (drValTruthy d.deliveryRequirements && !reqDeliveryAccessorTruthy d.requirements) = false) :
    drBlock d = some d := by
  unfold drBlock
  rw [if_neg (by simp [hg])]

/-- When both normalization blocks leave the fragment copy unchanged, the
post-call fragment state is the fragment itself. -/
theorem normalize_post_update_id (parseReq : String → Option DraftRequirements)
    (parseItems : String → Option (List DraftItem)) (A d : Draft)
    (h1 : itemsBlock parseItems d = some d) (h2 : drBlock d = some d) :
    (normalizeRfpDraft parseReq parseItems A (.val d)).2.2 = .val d := by
  unfold normalizeRfpDraft
  simp only [h1, h2]
  obtain ⟨t, ds, b, dl, req, it, dr, vs, mf⟩ := d
  cases req <;> rfl

/-- When the fragment's `requirements` is not an object there is no alias,
so the post-call fragment state is the fragment itself on every path
(including the throwing ones). -/
theorem normalize_post_update_nonobj (parseReq : String → Option DraftRequirements)
    (parseItems : String → Option (List DraftItem)) (A d : Draft)
    (h : isReqObj d.requirements = false) :
    (normalizeRfpDraft parseReq parseItems A (.val d)).2.2 = .val d := by
  unfold normalizeRfpDraft
  cases hib : itemsBlock parseItems d with
  | none => simp only [hib]
  | some u1 =>
    cases hdb : drBlock u1 with
    | none => simp only [hib, hdb]
    | some u2 =>
      simp only [hib, hdb]
      cases hr : d.requirements <;> simp only [hr] <;>
        first
          | rfl
          | (rw [hr] at h; exact absurd h (by simp [isReqObj]))

/-- Claim C3 counterexample: the fragment pairs a numeric top-level
`deliveryRequirements` with a `requirements` object lacking
`deliveryDays`; after the call the fragment's own `requirements` object has
gained `deliveryDays: 5` — the argument was mutated in place. -/
theorem C3_counterexample :
    (normalizeRfpDraft parseReqNone parseItemsNone {}
        (.val { deliveryRequirements := .val (.num 5),
                requirements := .obj { paymentTerms := .val "net 30" } })).2.2 ≠
      .val { deliveryRequirements := .val (.num 5),
             requirements := .obj { paymentTerms := .val "net 30" } } := by
  decide

/-- Claim C3 amended: the existing draft is never mutated, and the fragment
is returned structurally unchanged *provided* it does not combine a truthy
top-level `items`/`deliveryRequirements` with a shared `requirements`
object whose corresponding sub-key is falsy; in that remaining case the
fragment's nested `requirements` object may be written in place (see the
counterexample). -/
theorem C3_no_mutation_outside_alias (parseReq : String → Option DraftRequirements)
    (parseItems : String → Option (List DraftItem)) (A : Draft) (du : JsOpt Draft)
    (h : ∀ d : Draft, du = .val d → mutatesFragmentRequirements d = false) :
    (normalizeRfpDraft parseReq parseItems A du).2.1 = A ∧
      (normalizeRfpDraft parseReq parseItems A du).2.2 = du := by
  refine ⟨normalize_post_existing parseReq parseItems A du, ?_⟩
  cases du with
  | missing => rfl
  | undef => rfl
  | nullv => rfl
  | val d =>
    have hm := h d rfl
    unfold mutatesFragmentRequirements at hm
    cases hro : isReqObj d.requirements with
    | false => exact normalize_post_update_nonobj parseReq parseItems A d hro
    | true =>
      rw [hro, Bool.true_and, Bool.or_eq_false_iff] at hm
      exact normalize_post_update_id parseReq parseItems A d
        (itemsBlock_id parseItems hm.1) (drBlock_id hm.2)

/-- Claim C3 witness: the amended statement at a fragment carrying only a
title — both arguments come back unchanged. -/
theorem C3_witness :
    (normalizeRfpDraft parseReqNone parseItemsNone {} (.val { title := .val "T" })).2.1 =
      ({} : Draft) ∧
    (normalizeRfpDraft parseReqNone parseItemsNone {} (.val { title := .val "T" })).2.2 =
      .val { title := .val "T" } :=
  C3_no_mutation_outside_alias parseReqNone parseItemsNone {} (.val { title := .val "T" })
    (fun d hd => by cases hd; rfl)

/-! ## Claim C4 -/

/-- Inversion of a successful call on an object fragment: the result is
the merge of the rule-1-normalized existing draft with the fragment copy
taken through the four normalization blocks. -/
theorem normalize_val_some {parseReq : String → Option DraftRequirements}
    {parseItems : String → Option (List DraftItem)} {A d M : Draft}
    (hres : (normalizeRfpDraft parseReq parseItems A (.val d)).1 = some M) :
    ∃ u1 u2, itemsBlock parseItems d = some u1 ∧ drBlock u1 = some u2 ∧
      M = mergeDrafts { A with requirements := ruleOneRequirements parseReq A.requirements }
        (deadlineBlock (budgetBlock u2)) := by
  unfold normalizeRfpDraft at hres
  cases hib : itemsBlock parseItems d with
  | none => simp [hib] at hres
  | some u1 =>
    cases hdb : drBlock u1 with
    | none => simp [hib, hdb] at hres
    | some u2 =>
      simp only [hib, hdb, Option.some.injEq] at hres
      exact ⟨u1, u2, rfl, hdb, hres.symm⟩

/-- The items block never touches the `budget` field. -/
theorem itemsBlock_budget (parseItems : String → Option (List DraftItem))
    {u v : Draft} (h : itemsBlock parseItems u = some v) : v.budget = u.budget := by
  unfold itemsBlock at h
  split_ifs at h
  · cases hr : u.requirements with
    | str s =>
      simp only [hr] at h
      split_ifs at h
      simp only [Option.some.injEq] at h
      subst h; rfl
    | obj r =>
      simp only [hr, Option.some.injEq] at h
      subst h; rfl
    | missing =>
      simp only [hr, Option.some.injEq] at h
      subst h; rfl
    | undef =>
      simp only [hr, Option.some.injEq] at h
      subst h; rfl
    | nullv =>
      simp only [hr, Option.some.injEq] at h
      subst h; rfl
  · simp only [Option.some.injEq] at h
    subst h; rfl

/-- The deliveryRequirements block never touches the `budget` field. -/
theorem drBlock_budget {u v : Draft} (h : drBlock u = some v) : v.budget = u.budget := by
  unfold drBlock at h
  split_ifs at h
  · cases hdv : drParsedDays u.deliveryRequirements with
    | none =>
      simp only [hdv, Option.some.injEq] at h
      subst h; rfl
    | some q =>
      cases hro : ensureReqObj u.requirements with
      | obj r =>
        simp only [hdv, hro, Option.some.injEq] at h
        subst h; rfl
      | missing => simp [hdv, hro] at h
      | undef => simp [hdv, hro] at h
      | nullv => simp [hdv, hro] at h
      | str s => simp [hdv, hro] at h
  · simp only [Option.some.injEq] at h
    subst h; rfl

/-- The deadline block never touches the `budget` field. -/
theorem deadlineBlock_budget (u : Draft) : (deadlineBlock u).budget = u.budget := by
  unfold deadlineBlock
  cases hd : u.deadline with
  | val s =>
    simp only
    split_ifs <;> rfl
  | missing => simp only
  | undef => simp only
  | nullv => simp only

/-- Claim C4 counterexample: the existing draft has budget 1000 and the
fragment's budget is the non-numeric string "abc" — the merged draft's
budget is the present-but-`undefined` key (the spread copies the key set
to `undefined` over the existing value), not the existing 1000. -/
theorem C4_counterexample :
    ((normalizeRfpDraft parseReqNone parseItemsNone { budget := .val (.num 1000) }
        (.val { budget := .val (.str "abc") })).1).map Draft.budget = some .undef ∧
      (JsOpt.undef : JsOpt BudgetVal) ≠ .val (.num 1000) := by
  constructor
  · decide
  · decide

/-- Claim C4 amended: an incoming budget that is the empty string or
`null` is deleted, so the merged budget equals the existing one; but an
incoming budget that is a non-numeric string (a `parseFloat` `NaN`) is set
to `undefined`, which the merge spread copies over — overwriting the
existing budget instead of preserving it.  The budget handling itself
never throws. -/
theorem C4_budget_drop_behaviour (parseReq : String → Option DraftRequirements)
    (parseItems : String → Option (List DraftItem)) (A d M : Draft)
    (hres : (normalizeRfpDraft parseReq parseItems A (.val d)).1 = some M) :
    ((d.budget = .val (.str "") ∨ d.budget = .nullv) → M.budget = A.budget) ∧
    (∀ s, d.budget = .val (.str s) → s ≠ "" → parseFloatJS s = none → M.budget = .undef) := by
  obtain ⟨u1, u2, hib, hdb, hM⟩ := normalize_val_some hres
  have hub : u2.budget = d.budget := (drBlock_budget hdb).trans (itemsBlock_budget parseItems hib)
  have hMb : M.budget = jsOverride A.budget (budgetBlock u2).budget := by
    rw [hM]
    show jsOverride _ (deadlineBlock (budgetBlock u2)).budget = _
    rw [deadlineBlock_budget]
  constructor
  · rintro (hb | hb)
    · have hbb : (budgetBlock u2).budget = .missing := by
        unfold budgetBlock
        rw [hub, hb]
        simp
      rw [hbb] at hMb
      exact hMb
    · have hbb : (budgetBlock u2).budget = .missing := by
        unfold budgetBlock
        rw [hub, hb]
      rw [hbb] at hMb
      exact hMb
  · intro s hs hne hpf
    have hbb : (budgetBlock u2).budget = .undef := by
      unfold budgetBlock
      rw [hub, hs]
      simp only [if_neg hne, hpf]
    rw [hbb] at hMb
    exact hMb

/-- Claim C4 witness: the amended statement's empty-string case at an
existing budget of 7 — the merged budget is the existing one. -/
theorem C4_witness :
    ({ budget := .val (.num 7), requirements := .undef } : Draft).budget =
      ({ budget := .val (.num 7) } : Draft).budget :=
  (C4_budget_drop_behaviour parseReqNone parseItemsNone { budget := .val (.num 7) }
      { budget := .val (.str "") } { budget := .val (.num 7), requirements := .undef }
      (by decide)).1 (Or.inl rfl)

/-! ## Claim C6 -/

/-- The latest-update fold bounds by `u` exactly when the seed and every
proposal timestamp bound by `u`. -/
theorem lastProposalUpdate_le (u : ℚ) (ps : List StoredProposal) :
    ∀ acc : Option ℚ,
      ((∀ l : ℚ, ps.foldl
          (fun latest proposal =>
            match latest, proposal.updatedAt with
            | none, pu => pu
            | some l, none => some l
            | some l, some pu => if pu > l then some pu else some l)
          acc = some l → l ≤ u) ↔
        ((∀ l : ℚ, acc = some l → l ≤ u) ∧
          ∀ p ∈ ps, ∀ t : ℚ, p.updatedAt = some t → t ≤ u)) := by
  induction ps with
  | nil => intro acc; simp
  | cons p ps ih =>
    intro acc
    rw [List.foldl_cons, ih]
    have hstep : (∀ l : ℚ,
        (match acc, p.updatedAt with
          | none, pu => pu
          | some l, none => some l
          | some l, some pu => if pu > l then some pu else some l) = some l → l ≤ u) ↔
        ((∀ l : ℚ, acc = some l → l ≤ u) ∧ ∀ t : ℚ, p.updatedAt = some t → t ≤ u) := by
      cases hacc : acc with
      | none =>
        cases hp : p.updatedAt with
        | none => simp
        | some t => simp
      | some l =>
        cases hp : p.updatedAt with
        | none => simp
        | some t =>
          dsimp only
          split_ifs with hgt
          · constructor
            · intro hall
              refine ⟨fun l2 hl2 => ?_, fun t2 ht2 => ?_⟩
              · cases hl2
                have := hall t rfl
                linarith
              · cases ht2
                exact hall t rfl
            · rintro ⟨_, h2⟩ l2 hl2
              cases hl2
              exact h2 t rfl
          · constructor
            · intro hall
              refine ⟨fun l2 hl2 => ?_, fun t2 ht2 => ?_⟩
              · cases hl2
                exact hall l rfl
              · cases ht2
                have := hall l rfl
                linarith
            · rintro ⟨h1, _⟩ l2 hl2
              cases hl2
              exact h1 l rfl
    rw [hstep]
    simp only [List.forall_mem_cons]
    tauto

/-- Claim C6: a cached comparison is valid iff the cached evaluation count
equals the current proposal count and the cache timestamp is at or after
every proposal's `updatedAt` (vacuously so when no proposal has one); and
a cache valid for a proposal list is invalid once any proposal is
appended. -/
theorem C6_cache_validity {α : Type} (evaluations : Option (List α)) (u : ℚ)
    (ps : List StoredProposal) :
    (isCacheValid evaluations u ps = true ↔
      (cachedProposalCount evaluations = ps.length ∧
        ∀ p ∈ ps, ∀ t : ℚ, p.updatedAt = some t → t ≤ u)) ∧
    ∀ q : StoredProposal, isCacheValid evaluations u ps = true →
      isCacheValid evaluations u (ps ++ [q]) = false := by
  have hmain : ∀ ps' : List StoredProposal,
      (isCacheValid evaluations u ps' = true ↔
        (cachedProposalCount evaluations = ps'.length ∧
          ∀ p ∈ ps', ∀ t : ℚ, p.updatedAt = some t → t ≤ u)) := by
    intro ps'
    unfold isCacheValid
    rw [Bool.and_eq_true, beq_iff_eq]
    constructor
    · rintro ⟨hlen, hnewer⟩
      refine ⟨hlen, ?_⟩
      have := (lastProposalUpdate_le u ps' none).mp ?_
      · exact this.2
      · intro l hl
        unfold lastProposalUpdate at hnewer
        rw [hl] at hnewer
        exact of_decide_eq_true hnewer
    · rintro ⟨hlen, hts⟩
      refine ⟨hlen, ?_⟩
      unfold lastProposalUpdate
      cases hlast : ps'.foldl
          (fun latest proposal =>
            match latest, proposal.updatedAt with
            | none, pu => pu
            | some l, none => some l
            | some l, some pu => if pu > l then some pu else some l)
          none with
      | none => rfl
      | some l =>
        have hle := ((lastProposalUpdate_le u ps' none).mpr
          ⟨fun l2 hl2 => Option.noConfusion hl2, hts⟩) l hlast
        exact decide_eq_true (by exact hle)
  constructor
  · exact hmain ps
  · intro q hvalid
    have hlen := ((hmain ps).mp hvalid).1
    unfold isCacheValid
    rw [Bool.and_eq_false_iff]
    left
    rw [beq_eq_false_iff_ne]
    rw [List.length_append, List.length_cons, List.length_nil, hlen]
    omega

/-! ## Claim C8 -/

/-- The under-budget curve is antitone in the deviation magnitude. -/
theorem underBudgetScore_antitone {a1 a2 : ℚ} (h : a1 ≤ a2) :
    underBudgetScore a2 ≤ underBudgetScore a1 := by
  unfold underBudgetScore
  split_ifs <;>
    first
      | linarith
      | (rw [max_le_iff]
         refine ⟨?_, ?_⟩ <;>
           first
             | linarith
             | exact le_max_left _ _
             | exact le_max_of_le_right (by linarith))

/-- The over-budget curve is antitone in the deviation magnitude. -/
theorem overBudgetScore_antitone {a1 a2 : ℚ} (h : a1 ≤ a2) :
    overBudgetScore a2 ≤ overBudgetScore a1 := by
  unfold overBudgetScore
  split_ifs <;>
    first
      | linarith
      | (rw [max_le_iff]
         refine ⟨?_, ?_⟩ <;>
           first
             | linarith
             | exact le_max_left _ _
             | exact le_max_of_le_right (by linarith))

/-- On the under-budget side the price score is the rounded under-budget
curve of the deviation magnitude `(b - p) / b * 100`. -/
theorem evaluatePrice_under (p b : ℚ) (hb : 0 < b) (hp : 0 < p) (hpb : p < b) :
    (evaluatePrice (some p) (some b)).score = roundJS (underBudgetScore ((b - p) / b * 100)) := by
  simp only [evaluatePrice, if_neg hp.ne', if_neg hb.ne']
  have hdev : (p - b) / b * 100 < 0 :=
    mul_neg_of_neg_of_pos (div_neg_of_neg_of_pos (by linarith) hb) (by norm_num)
  have habs : |(p - b) / b * 100| = (b - p) / b * 100 := by
    rw [abs_of_neg hdev]
    ring
  simp only [if_pos hdev, habs]

/-- On the over-budget side (budget met or exceeded) the price score is the
rounded over-budget curve of the deviation `(p - b) / b * 100`. -/
theorem evaluatePrice_over (p b : ℚ) (hb : 0 < b) (hbp : b ≤ p) :
    (evaluatePrice (some p) (some b)).score = roundJS (overBudgetScore ((p - b) / b * 100)) := by
  have hp : 0 < p := lt_of_lt_of_le hb hbp
  simp only [evaluatePrice, if_neg hp.ne', if_neg hb.ne']
  have hdev : ¬((p - b) / b * 100 < 0) := by
    push_neg
    apply mul_nonneg (div_nonneg (by linarith) hb.le) (by norm_num)
  have habs : |(p - b) / b * 100| = (p - b) / b * 100 := by
    rw [abs_of_nonneg (not_lt.mp hdev)]
  simp only [if_neg hdev, habs]

/-- Claim C8: for a fixed positive budget the price score is monotone on
each side of the budget — shrinking an under-budget deviation magnitude
never decreases the score, and growing an over-budget deviation magnitude
never increases it. -/
theorem C8_price_monotone (b p1 p2 : ℚ) (hb : 0 < b) :
    ((0 < p2 → p2 < p1 → p1 < b →
        (evaluatePrice (some p2) (some b)).score ≤ (evaluatePrice (some p1) (some b)).score) ∧
      (b ≤ p1 → p1 < p2 →
        (evaluatePrice (some p2) (some b)).score ≤ (evaluatePrice (some p1) (some b)).score)) := by
  constructor
  · intro hp2 h21 h1b
    rw [evaluatePrice_under p1 b hb (by linarith) h1b,
        evaluatePrice_under p2 b hb hp2 (by linarith)]
    apply roundJS_mono
    apply underBudgetScore_antitone
    have hdiv : (b - p1) / b ≤ (b - p2) / b := by
      apply div_le_div_of_nonneg_right ?_ hb.le
      linarith
    linarith
  · intro hb1 h12
    rw [evaluatePrice_over p1 b hb hb1, evaluatePrice_over p2 b hb (by linarith)]
    apply roundJS_mono
    apply overBudgetScore_antitone
    have hdiv : (p1 - b) / b ≤ (p2 - b) / b := by
      apply div_le_div_of_nonneg_right ?_ hb.le
      linarith
    linarith

/-- Claim C8 witness: concrete instances on both sides of a budget of
100 — price 97 scores at least price 90 (under budget), price 100 at
least price 120 (over budget). -/
theorem C8_witness :
    (evaluatePrice (some 90) (some 100)).score ≤ (evaluatePrice (some 97) (some 100)).score ∧
    (evaluatePrice (some 120) (some 100)).score ≤ (evaluatePrice (some 100) (some 100)).score :=
  ⟨(C8_price_monotone 100 97 90 (by norm_num)).1 (by norm_num) (by norm_num) (by norm_num),
   (C8_price_monotone 100 100 120 (by norm_num)).2 (by norm_num) (by norm_num)⟩

/-! ## Claim C1 -/

/-- The under-budget curve stays within [30, 100]. -/
theorem underBudgetScore_bounds (a : ℚ) :
    30 ≤ underBudgetScore a ∧ underBudgetScore a ≤ 100 := by
  unfold underBudgetScore
  split_ifs <;> constructor <;>
    first
      | linarith
      | exact le_max_left _ _
      | (rw [max_le_iff]; constructor <;> linarith)

/-- The over-budget curve stays within [0, 100]. -/
theorem overBudgetScore_bounds (a : ℚ) :
    0 ≤ overBudgetScore a ∧ overBudgetScore a ≤ 100 := by
  unfold overBudgetScore
  split_ifs <;> constructor <;>
    first
      | linarith
      | exact le_max_left _ _
      | (rw [max_le_iff]; constructor <;> linarith)

/-- A rounded percentage `m / n * 100` with `m ≤ n` lies in [0, 100]. -/
theorem ratio_score_bounds {m n : ℕ} (hmn : m ≤ n) (hn : 0 < n) :
    0 ≤ roundJS ((m : ℚ) / n * 100) ∧ roundJS ((m : ℚ) / n * 100) ≤ 100 := by
  have hnQ : 0 < (n : ℚ) := by exact_mod_cast hn
  have hmQ : (m : ℚ) ≤ n := by exact_mod_cast hmn
  constructor
  · apply roundJS_lb
    push_cast
    positivity
  · apply roundJS_ub
    push_cast
    rw [div_mul_eq_mul_div, div_le_iff₀ hnQ]
    linarith

/-- The price score lies in [0, 100]. -/
theorem evaluatePrice_score_bounds (pp bb : Option ℚ) :
    0 ≤ (evaluatePrice pp bb).score ∧ (evaluatePrice pp bb).score ≤ 100 := by
  cases pp with
  | none => constructor <;> norm_num [evaluatePrice]
  | some p =>
    by_cases hp : p = 0
    · constructor <;> simp [evaluatePrice, hp]
    · cases bb with
      | none => constructor <;> simp [evaluatePrice, hp]
      | some b =>
        by_cases hb : b = 0
        · constructor <;> simp [evaluatePrice, hp, hb]
        · simp only [evaluatePrice, if_neg hp, if_neg hb]
          by_cases hneg : (p - b) / b * 100 < 0
          · rw [if_pos hneg]
            obtain ⟨h1, h2⟩ := underBudgetScore_bounds |(p - b) / b * 100|
            exact ⟨roundJS_lb (by push_cast; linarith), roundJS_ub (by push_cast; linarith)⟩
          · rw [if_neg hneg]
            obtain ⟨h1, h2⟩ := overBudgetScore_bounds |(p - b) / b * 100|
            exact ⟨roundJS_lb (by push_cast; linarith), roundJS_ub (by push_cast; linarith)⟩

/-- The delivery score lies in [0, 100]. -/
theorem evaluateDelivery_score_bounds (pd rd : Option ℚ) :
    0 ≤ (evaluateDelivery pd rd).score ∧ (evaluateDelivery pd rd).score ≤ 100 := by
  cases pd with
  | none => constructor <;> norm_num [evaluateDelivery]
  | some p =>
    by_cases hp : p = 0
    · constructor <;> simp [evaluateDelivery, hp]
    · cases rd with
      | none => constructor <;> simp [evaluateDelivery, hp]
      | some r =>
        by_cases hr : r = 0
        · constructor <;> simp [evaluateDelivery, hp, hr]
        · simp only [evaluateDelivery, if_neg hp, if_neg hr]
          by_cases hd : p - r ≤ 0
          · rw [if_pos hd]
            constructor
            · apply roundJS_lb
              push_cast
              have h90 : (90 : ℚ) ≤ max 90 (min 100 (100 - |p - r| * 2)) := le_max_left _ _
              linarith
            · apply roundJS_ub
              push_cast
              rw [max_le_iff]
              exact ⟨by norm_num, le_trans (min_le_left _ _) (by norm_num)⟩
          · rw [if_neg hd]
            split_ifs
            · exact ⟨roundJS_lb (by norm_num), roundJS_ub (by norm_num)⟩
            · exact ⟨roundJS_lb (by norm_num), roundJS_ub (by norm_num)⟩
            · exact ⟨roundJS_lb (by norm_num), roundJS_ub (by norm_num)⟩
            · constructor
              · apply roundJS_lb
                push_cast
                exact le_max_left _ _
              · apply roundJS_ub
                push_cast
                rw [max_le_iff]
                constructor
                · norm_num
                · linarith

/-- The requirements score lies in [0, 100]. -/
theorem matchItems_score_bounds (items : List RequirementItem)
    (ips : Option (List ItemPrice)) (notes raw : Option String) :
    0 ≤ (matchItems items ips notes raw).score ∧ (matchItems items ips notes raw).score ≤ 100 := by
  unfold matchItems
  split_ifs with h
  · constructor <;> norm_num
  · dsimp only
    exact ratio_score_bounds (List.length_filter_le _ _)
      (List.length_pos.mpr (by simpa using h))

/-- The payment-terms score lies in [0, 100]. -/
theorem evaluatePaymentTerms_score_bounds (pt rt : Option String) :
    0 ≤ (evaluatePaymentTerms pt rt).score ∧ (evaluatePaymentTerms pt rt).score ≤ 100 := by
  cases pt with
  | none => constructor <;> norm_num [evaluatePaymentTerms]
  | some s =>
    by_cases hs : s = ""
    · constructor <;> simp [evaluatePaymentTerms, hs]
    · cases rt with
      | none => constructor <;> simp [evaluatePaymentTerms, hs]
      | some r =>
        by_cases hr : r = ""
        · constructor <;> simp [evaluatePaymentTerms, hs, hr]
        · simp only [evaluatePaymentTerms, if_neg hs, if_neg hr]
          split_ifs <;> constructor <;> norm_num

/-- The warranty score lies in [0, 100]. -/
theorem evaluateWarranty_score_bounds (pw rw : Option String) :
    0 ≤ (evaluateWarranty pw rw).score ∧ (evaluateWarranty pw rw).score ≤ 100 := by
  cases pw with
  | none => constructor <;> norm_num [evaluateWarranty]
  | some s =>
    by_cases hs : s = ""
    · constructor <;> simp [evaluateWarranty, hs]
    · cases rw with
      | none => constructor <;> simp [evaluateWarranty, hs]
      | some r =>
        by_cases hr : r = ""
        · constructor <;> simp [evaluateWarranty, hs, hr]
        · simp only [evaluateWarranty, if_neg hs, if_neg hr]
          rcases hfp : firstNat s with _ | a <;> rcases hfr : firstNat r with _ | b <;>
            simp only [hfp, hfr] <;> split_ifs <;> constructor <;> norm_num

/-- The completeness score lies in [0, 100] whenever the completeness
value, when present, lies in [0, 1]. -/
theorem evaluateCompleteness_score_bounds (c : Option ℚ)
    (hc : ∀ x : ℚ, c = some x → 0 ≤ x ∧ x ≤ 1) :
    0 ≤ (evaluateCompleteness c).score ∧ (evaluateCompleteness c).score ≤ 100 := by
  cases c with
  | none => constructor <;> norm_num [evaluateCompleteness]
  | some x =>
    obtain ⟨h0, h1⟩ := hc x rfl
    simp only [evaluateCompleteness]
    exact ⟨roundJS_lb (by push_cast; linarith), roundJS_ub (by push_cast; linarith)⟩

/-- The other-requirements score lies in [0, 100]. -/
theorem evaluateOtherRequirements_score_bounds (notes raw : Option String)
    (other : Option (List String)) :
    0 ≤ (evaluateOtherRequirements notes raw other).score ∧
      (evaluateOtherRequirements notes raw other).score ≤ 100 := by
  cases other with
  | none => constructor <;> norm_num [evaluateOtherRequirements]
  | some reqs =>
    simp only [evaluateOtherRequirements]
    split_ifs with h
    · constructor <;> norm_num
    · dsimp only
      exact ratio_score_bounds (List.length_filter_le _ _)
        (List.length_pos.mpr (by simpa using h))

/-- Claim C1: the seven criterion weights sum to 1, and for every
proposal/RFP pair (with the proposal's resolved completeness, when
present, in [0, 1]) the weighted overall score is an integer in
[0, 100]. -/
theorem C1_weights_sum_and_overall_range (proposal : Proposal) (rfp : RFP)
    (hc : ∀ c : ℚ, (resolveProposalData proposal).completeness = some c → 0 ≤ c ∧ c ≤ 1) :
    (evaluationWeights.price + evaluationWeights.delivery + evaluationWeights.requirements +
        evaluationWeights.paymentTerms + evaluationWeights.warranty +
        evaluationWeights.completeness + evaluationWeights.otherRequirements = 1) ∧
    0 ≤ (evaluateProposal proposal rfp).overallScore ∧
      (evaluateProposal proposal rfp).overallScore ≤ 100 := by
  have hp := evaluatePrice_score_bounds (resolveProposalData proposal).totalPrice rfp.budget
  have hd := evaluateDelivery_score_bounds (resolveProposalData proposal).deliveryDays
    (orUndefinedQ rfp.requirements.deliveryDays)
  have hr := matchItems_score_bounds (rfp.requirements.items.getD [])
    (resolveProposalData proposal).itemPrices (resolveProposalData proposal).notes
    (resolveProposalData proposal).rawEmail
  have hpt := evaluatePaymentTerms_score_bounds (resolveProposalData proposal).paymentTerms
    (orUndefinedS rfp.requirements.paymentTerms)
  have hw := evaluateWarranty_score_bounds (resolveProposalData proposal).warranty
    (orUndefinedS rfp.requirements.warranty)
  have hcm := evaluateCompleteness_score_bounds (resolveProposalData proposal).completeness hc
  have ho := evaluateOtherRequirements_score_bounds (resolveProposalData proposal).notes
    (resolveProposalData proposal).rawEmail rfp.requirements.otherRequirements
  have hp1 : (0 : ℚ) ≤ (evaluatePrice (resolveProposalData proposal).totalPrice rfp.budget).score :=
    by exact_mod_cast hp.1
  have hp2 : ((evaluatePrice (resolveProposalData proposal).totalPrice rfp.budget).score : ℚ) ≤ 100 :=
    by exact_mod_cast hp.2
  have hd1 : (0 : ℚ) ≤ (evaluateDelivery (resolveProposalData proposal).deliveryDays
      (orUndefinedQ rfp.requirements.deliveryDays)).score := by exact_mod_cast hd.1
  have hd2 : ((evaluateDelivery (resolveProposalData proposal).deliveryDays
      (orUndefinedQ rfp.requirements.deliveryDays)).score : ℚ) ≤ 100 := by exact_mod_cast hd.2
  have hr1 : (0 : ℚ) ≤ (matchItems (rfp.requirements.items.getD [])
      (resolveProposalData proposal).itemPrices (resolveProposalData proposal).notes
      (resolveProposalData proposal).rawEmail).score := by exact_mod_cast hr.1
  have hr2 : ((matchItems (rfp.requirements.items.getD [])
      (resolveProposalData proposal).itemPrices (resolveProposalData proposal).notes
      (resolveProposalData proposal).rawEmail).score : ℚ) ≤ 100 := by exact_mod_cast hr.2
  have hpt1 : (0 : ℚ) ≤ (evaluatePaymentTerms (resolveProposalData proposal).paymentTerms
      (orUndefinedS rfp.requirements.paymentTerms)).score := by exact_mod_cast hpt.1
  have hpt2 : ((evaluatePaymentTerms (resolveProposalData proposal).paymentTerms
      (orUndefinedS rfp.requirements.paymentTerms)).score : ℚ) ≤ 100 := by exact_mod_cast hpt.2
  have hw1 : (0 : ℚ) ≤ (evaluateWarranty (resolveProposalData proposal).warranty
      (orUndefinedS rfp.requirements.warranty)).score := by exact_mod_cast hw.1
  have hw2 : ((evaluateWarranty (resolveProposalData proposal).warranty
      (orUndefinedS rfp.requirements.warranty)).score : ℚ) ≤ 100 := by exact_mod_cast hw.2
  have hcm1 : (0 : ℚ) ≤ (evaluateCompleteness (resolveProposalData proposal).completeness).score :=
    by exact_mod_cast hcm.1
  have hcm2 : ((evaluateCompleteness (resolveProposalData proposal).completeness).score : ℚ) ≤ 100 :=
    by exact_mod_cast hcm.2
  have ho1 : (0 : ℚ) ≤ (evaluateOtherRequirements (resolveProposalData proposal).notes
      (resolveProposalData proposal).rawEmail rfp.requirements.otherRequirements).score :=
    by exact_mod_cast ho.1
  have ho2 : ((evaluateOtherRequirements (resolveProposalData proposal).notes
      (resolveProposalData proposal).rawEmail rfp.requirements.otherRequirements).score : ℚ) ≤ 100 :=
    by exact_mod_cast ho.2
  refine ⟨by norm_num [evaluationWeights], ?_, ?_⟩
  · unfold evaluateProposal calculateOverallScore
    apply roundJS_lb
    push_cast
    simp only [evaluationWeights]
    linarith
  · unfold evaluateProposal calculateOverallScore
    apply roundJS_ub
    push_cast
    simp only [evaluationWeights]
    linarith

/-- Claim C1 witness: the weight sum and the overall-score range at the
empty proposal and empty RFP (resolved completeness absent, so the
hypothesis is vacuous). -/
theorem C1_witness :
    (evaluationWeights.price + evaluationWeights.delivery + evaluationWeights.requirements +
        evaluationWeights.paymentTerms + evaluationWeights.warranty +
        evaluationWeights.completeness + evaluationWeights.otherRequirements = 1) ∧
    0 ≤ (evaluateProposal {} {}).overallScore ∧ (evaluateProposal {} {}).overallScore ≤ 100 :=
  C1_weights_sum_and_overall_range {} {} (fun _ hc => nomatch hc)

/-! ## Claim C5 -/

/-- `jsOverride` with a missing incoming key keeps the existing state. -/
theorem jsOverride_missing {α : Type} (e : JsOpt α) : jsOverride e .missing = e := rfl

/-- Keep-first deduplication commutes with filtering by a name-respecting
predicate. -/
theorem dedupByName_filter (q : DraftItem → Bool)
    (hq : ∀ a b : DraftItem, a.name = b.name → q a = q b) :
    ∀ l : List DraftItem, dedupByName (l.filter q) = (dedupByName l).filter q := by
  intro l
  induction l with
  | nil => rfl
  | cons x xs ih =>
    by_cases hx : q x = true
    · rw [List.filter_cons_of_pos hx]
      show x :: (dedupByName (xs.filter q)).filter (fun y => y.name != x.name) = _
      rw [ih]
      show _ = (x :: (dedupByName xs).filter (fun y => y.name != x.name)).filter q
      rw [List.filter_cons_of_pos hx, List.filter_comm]
    · have hxf : q x = false := by
        cases hqx : q x
        · rfl
        · exact absurd hqx hx
      rw [List.filter_cons_of_neg (by simp [hxf])]
      rw [ih]
      show _ = (x :: (dedupByName xs).filter (fun y => y.name != x.name)).filter q
      rw [List.filter_cons_of_neg (by simp [hxf]), List.filter_comm]
      symm
      apply List.filter_eq_self.mpr
      intro a ha
      have hqa : q a = true := List.of_mem_filter ha
      have hne : a.name ≠ x.name := fun hn => by
        rw [hq a x hn] at hqa
        rw [hqa] at hxf
        exact Bool.noConfusion hxf
      simp [hne]

/-- Keep-first deduplication is idempotent. -/
theorem dedupByName_idem (l : List DraftItem) : dedupByName (dedupByName l) = dedupByName l := by
  induction l with
  | nil => rfl
  | cons x xs ih =>
    show dedupByName (x :: (dedupByName xs).filter (fun y => y.name != x.name)) = _
    show x :: (dedupByName ((dedupByName xs).filter (fun y => y.name != x.name))).filter
        (fun y => y.name != x.name) = _
    rw [dedupByName_filter (fun y => y.name != x.name) (fun a b hab => by simp only [hab]), ih,
      List.filter_filter]
    show x :: (dedupByName xs).filter (fun y => y.name != x.name && (y.name != x.name)) = _
    congr 1
    apply List.filter_congr
    intro a _
    cases h : (a.name != x.name) <;> rfl

/-- A merge result's `requirements` is either the explicit `undefined` or
an object whose `items` is a deduplicated list. -/
theorem mergeDrafts_req_shape (nE u : Draft) :
    (mergeDrafts nE u).requirements = .undef ∨
      ∃ R : DraftRequirements, (mergeDrafts nE u).requirements = .obj R ∧
        ∃ L : List DraftItem, R.items = .val (dedupByName L) := by
  unfold mergeDrafts
  dsimp only
  split_ifs with h
  · right
    exact ⟨_, rfl, _, rfl⟩
  · left
    rfl

/-- Merging the empty object fragment into a merge-shaped draft changes
nothing. -/
theorem mergeDrafts_empty (M : Draft)
    (h : M.requirements = .undef ∨
      ∃ R : DraftRequirements, M.requirements = .obj R ∧
        ∃ L : List DraftItem, R.items = .val (dedupByName L)) :
    mergeDrafts M emptyDraft = M := by
  obtain ⟨t, ds, b, dl, req, it, dr, vs, mf⟩ := M
  rcases h with h | ⟨R, hR, L, hL⟩
  · dsimp only at h
    subst h
    rfl
  · dsimp only at hR
    subst hR
    obtain ⟨ri, rd, rp, rw2, ro⟩ := R
    dsimp only at hL
    subst hL
    unfold mergeDrafts emptyDraft
    simp only [reqFieldTruthy, Bool.false_or, if_pos, reqNamedFields, reqItemsList,
      List.append_nil, dedupByName_idem, jsOverride]

/-- Claim C5 counterexample: with the null fragment the early-return path
skips the merge normalization, so a later merge with the empty fragment
`{}` is not a no-op: `normalize(A, null)` keeps `requirements: {}` as-is,
and `normalize(·, {})` then adds an `items: []` key —
`normalize(normalize(A, B), {})` differs from `normalize(A, B)` at
`A = {requirements: {}}`, `B = null`. -/
theorem C5_counterexample :
    (normalizeRfpDraft parseReqNone parseItemsNone { requirements := .obj {} } .nullv).1 =
      some { requirements := .obj {} } ∧
    (normalizeRfpDraft parseReqNone parseItemsNone { requirements := .obj {} }
        (.val emptyDraft)).1 = some { requirements := .obj { items := .val [] } } ∧
    ({ requirements := .obj { items := .val [] } } : Draft) ≠
      { requirements := .obj {} } := by
  refine ⟨by decide, by decide, by decide⟩

/-- Claim C5 amended: merging an empty fragment is a no-op for every
*object* fragment `d`: whenever `normalize(A, d)` succeeds with result
`M`, `normalize(M, {})` returns `M` again.  (With a null/undefined
fragment the early return skips the merge normalization and the property
fails; see the counterexample.) -/
theorem C5_merge_empty_fragment_noop (parseReq : String → Option DraftRequirements)
    (parseItems : String → Option (List DraftItem)) (A d M : Draft)
    (h : (normalizeRfpDraft parseReq parseItems A (.val d)).1 = some M) :
    (normalizeRfpDraft parseReq parseItems M (.val emptyDraft)).1 = some M := by
  obtain ⟨u1, u2, hib, hdb, hM⟩ := normalize_val_some h
  have hshape := mergeDrafts_req_shape
    { A with requirements := ruleOneRequirements parseReq A.requirements }
    (deadlineBlock (budgetBlock u2))
  rw [← hM] at hshape
  have hcall : (normalizeRfpDraft parseReq parseItems M (.val emptyDraft)).1 =
      some (mergeDrafts { M with requirements := ruleOneRequirements parseReq M.requirements }
        emptyDraft) := rfl
  have hrule : ruleOneRequirements parseReq M.requirements = M.requirements := by
    rcases hshape with hs | ⟨R, hs, _⟩ <;> rw [hs] <;> rfl
  have heta : { M with requirements := M.requirements } = M := rfl
  rw [hcall, hrule, heta, mergeDrafts_empty M hshape]

/-- Claim C5 witness: the amended statement at the empty existing draft
and the empty object fragment. -/
theorem C5_witness :
    (normalizeRfpDraft parseReqNone parseItemsNone { requirements := .undef }
        (.val emptyDraft)).1 = some { requirements := .undef } :=
  C5_merge_empty_fragment_noop parseReqNone parseItemsNone {} {}
    { requirements := .undef } (by decide)
